import Mathlib

/-!
Shallow embedding of the mediathekviewweb client library (src/lib.rs,
src/models.rs, src/error.rs) and proofs about its query construction,
search-string parsing, serialization and tolerant response decoding.

Machine integers are modelled as Nat/Int with explicit range checks where
the Rust code checks or converts; Rust Option/Result become Option/Except;
Duration values are modelled by their seconds (Nat) or, where fractional
seconds matter, by rationals.
-/

namespace Mtvw

/-- QueryField (src/models.rs lines 19-24). -/
inductive QueryField where
  | topic
  | title
  | description
  | channel
deriving DecidableEq

/-- Query (src/models.rs lines 11-14): one field-set/text clause. -/
structure Query where
  fields : List QueryField
  query : String
deriving DecidableEq

/-- SortField (src/models.rs lines 37-41). -/
inductive SortField where
  | channel
  | timestamp
  | duration
deriving DecidableEq

/-- SortOrder (src/models.rs lines 44-49). -/
inductive SortOrder where
  | ascending
  | descending
deriving DecidableEq

/-- MediathekQuery (src/lib.rs lines 118-136); `Default` gives an empty
clause list and every optional member unset. Durations are seconds. -/
structure MediathekQuery where
  queries : List Query := []
  duration_min : Option Nat := none
  duration_max : Option Nat := none
  future : Option Bool := none
  sort_by : Option SortField := none
  sort_order : Option SortOrder := none
  size : Option Nat := none
  offset : Option Nat := none
deriving DecidableEq

/-- Rust str::strip with a single-character pattern: returns the rest of
the string when the first character is `c`. -/
def stripChar (c : Char) (s : String) : Option String :=
  match s.data with
  | [] => none
  | c0 :: rest => if c0 = c then some (String.mk rest) else none

/-- Rust str::replace of a single comma character by a single space. -/
def replaceCommas (s : String) : String :=
  String.mk (s.data.map (fun c => if c = ',' then ' ' else c))

/-- Helper for splitWhitespaceTokens: walks the characters, accumulating
the current token in reverse in `acc`. -/
def splitWsAux : List Char → List Char → List String
  | [], acc => if acc.isEmpty then [] else [String.mk acc.reverse]
  | c :: rest, acc =>
    if c.isWhitespace then
      if acc.isEmpty then splitWsAux rest []
      else String.mk acc.reverse :: splitWsAux rest []
    else splitWsAux rest (c :: acc)

/-- Rust str::split_whitespace: the maximal nonempty runs of
non-whitespace characters, in order. -/
def splitWhitespaceTokens (s : String) : List String :=
  splitWsAux s.data []

/-- ASCII decimal digit test. -/
def isDigitChar (c : Char) : Bool :=
  decide ('0' ≤ c) && decide (c ≤ '9')

/-- Value of a list of ASCII digits read left to right. -/
def digitsToNat (cs : List Char) : Nat :=
  cs.foldl (fun acc c => acc * 10 + (c.toNat - Char.toNat '0')) 0

/-- Rust u64::from_str: an optional leading plus sign, then one or more
ASCII digits, with the value required to fit in 64 bits. -/
def parseU64 (s : String) : Option Nat :=
  let cs :=
    match s.data with
    | '+' :: rest => rest
    | l => l
  if (!cs.isEmpty) && cs.all isDigitChar then
    let v := digitsToNat cs
    if v < 2 ^ 64 then some v else none
  else none

/-- Rust i64::from_str: an optional leading sign, then one or more ASCII
digits, with the signed value required to fit in 64 bits. -/
def parseI64 (s : String) : Option Int :=
  let signAndDigits : Bool × List Char :=
    match s.data with
    | '+' :: rest => (false, rest)
    | '-' :: rest => (true, rest)
    | l => (false, l)
  let neg := signAndDigits.1
  let cs := signAndDigits.2
  if (!cs.isEmpty) && cs.all isDigitChar then
    let v : Int := if neg then -(digitsToNat cs : Int) else (digitsToNat cs : Int)
    if -(2 ^ 63) ≤ v ∧ v < 2 ^ 63 then some v else none
  else none

/-- The field list used for a plain-text token
(src/lib.rs lines 168-177). -/
def plainFields (searchEverywhere : Bool) : List QueryField :=
  if searchEverywhere then
    [QueryField.channel, QueryField.topic, QueryField.title, QueryField.description]
  else
    [QueryField.topic, QueryField.title]

/-- One iteration of the token loop of MediathekQuery::from_search_string
(src/lib.rs lines 142-183). `s` is the whole search string: the final
plain-text branch pushes `s.to_owned()` — the entire input string, not the
current token — exactly as the source does. -/
def fromSearchStep (s : String) (searchEverywhere : Bool)
    (query : MediathekQuery) (part : String) : MediathekQuery :=
  match stripChar '!' part with
  | some channel =>
      { query with
        queries := query.queries ++ [⟨[QueryField.channel], replaceCommas channel⟩] }
  | none =>
    match stripChar '#' part with
    | some topic =>
        { query with
          queries := query.queries ++ [⟨[QueryField.topic], replaceCommas topic⟩] }
    | none =>
      match stripChar '+' part with
      | some title =>
          { query with
            queries := query.queries ++ [⟨[QueryField.title], replaceCommas title⟩] }
      | none =>
        match stripChar '*' part with
        | some description =>
            { query with
              queries :=
                query.queries ++ [⟨[QueryField.description], replaceCommas description⟩] }
        | none =>
          match (stripChar '>' part).bind parseU64 with
          | some duration_min => { query with duration_min := some duration_min }
          | none =>
            match (stripChar '<' part).bind parseU64 with
            | some duration_max => { query with duration_max := some duration_max }
            | none =>
              { query with
                queries := query.queries ++ [⟨plainFields searchEverywhere, s⟩] }

/-- MediathekQuery::from_search_string (src/lib.rs lines 139-186). -/
def fromSearchString (s : String) (searchEverywhere : Bool) : MediathekQuery :=
  (splitWhitespaceTokens s).foldl (fromSearchStep s searchEverywhere) {}

/-- One chained call on MediathekQueryBuilder (src/lib.rs lines 203-255),
as data. Durations are already in seconds (Duration::as_secs). -/
inductive BuilderOp where
  | query (fields : List QueryField) (text : String)
  | duration_min (d : Nat)
  | duration_max (d : Nat)
  | include_future (b : Bool)
  | sort_by (f : SortField)
  | sort_order (o : SortOrder)
  | size (n : Nat)
  | offset (n : Nat)
deriving DecidableEq

/-- Effect of one builder call on the in-progress MediathekQuery
(src/lib.rs lines 209-254). -/
def applyBuilderOp (q : MediathekQuery) : BuilderOp → MediathekQuery
  | .query fields text => { q with queries := q.queries ++ [⟨fields, text⟩] }
  | .duration_min d => { q with duration_min := some d }
  | .duration_max d => { q with duration_max := some d }
  | .include_future b => { q with future := some b }
  | .sort_by f => { q with sort_by := some f }
  | .sort_order o => { q with sort_order := some o }
  | .size n => { q with size := some n }
  | .offset n => { q with offset := some n }

/-- Builder state after MediathekQueryBuilder::new (src/lib.rs lines
196-201, starting from Default) followed by a chain of calls. -/
def buildQuery (ops : List BuilderOp) : MediathekQuery :=
  ops.foldl applyBuilderOp {}

/-- JSON values as serde_json sees them after parsing: `num` carries an
integer (serde_json keeps an integer as u64 when non-negative and i64 when
negative; integers outside those ranges, and all non-integer numbers, are
`float`). -/
inductive Json where
  | num (n : Int)
  | float (q : Rat)
  | str (s : String)
  | bool (b : Bool)
  | null
  | arr (xs : List Json)
  | obj (kvs : List (String × Json))

/-- serde Serialize for QueryField (snake_case rename,
src/models.rs lines 16-24). -/
def serializeQueryField : QueryField → Json
  | .topic => .str "topic"
  | .title => .str "title"
  | .description => .str "description"
  | .channel => .str "channel"

/-- serde Serialize for Query (src/models.rs lines 10-14). -/
def serializeQuery (q : Query) : Json :=
  .obj [("fields", .arr (q.fields.map serializeQueryField)), ("query", .str q.query)]

/-- serde Serialize for SortField (snake_case rename,
src/models.rs lines 34-41). -/
def serializeSortField : SortField → Json
  | .channel => .str "channel"
  | .timestamp => .str "timestamp"
  | .duration => .str "duration"

/-- serde Serialize for SortOrder (src/models.rs lines 43-49). -/
def serializeSortOrder : SortOrder → Json
  | .ascending => .str "asc"
  | .descending => .str "desc"

/-- One optional struct member under skip_serializing_if Option::is_none:
emitted iff set, absent (no key at all, not null) otherwise. -/
def optEntry (key : String) (o : Option Json) : List (String × Json) :=
  match o with
  | none => []
  | some v => [(key, v)]

/-- serde Serialize of MediathekQuery (src/lib.rs lines 118-136), as the
ordered key/value list of the emitted JSON object: `queries` always,
every optional member only when set, with the wire names `sortBy` and
`sortOrder` for the two renamed members. -/
def serializeMediathekQuery (q : MediathekQuery) : List (String × Json) :=
  [("queries", Json.arr (q.queries.map serializeQuery))]
    ++ optEntry "duration_min" (q.duration_min.map (fun n => Json.num n))
    ++ optEntry "duration_max" (q.duration_max.map (fun n => Json.num n))
    ++ optEntry "future" (q.future.map Json.bool)
    ++ optEntry "sortBy" (q.sort_by.map serializeSortField)
    ++ optEntry "sortOrder" (q.sort_order.map serializeSortOrder)
    ++ optEntry "size" (q.size.map (fun n => Json.num n))
    ++ optEntry "offset" (q.offset.map (fun n => Json.num n))

/-- The keys of the serialized MediathekQuery object, in order. -/
def wireKeys (q : MediathekQuery) : List String :=
  (serializeMediathekQuery q).map Prod.fst

/-- crate::Error (src/error.rs lines 10-14). -/
inductive Error where
  | reqwest
  | emptyResponse
  | response (e : List String)
deriving DecidableEq

/-- ApiResult (src/models.rs lines 95-98): the decoded response envelope.
ApiError is a boxed slice of strings, modelled as a string list. -/
structure ApiResult (T : Type) where
  err : Option (List String)
  result : Option T

/-- From impl ApiResult into crate::Result (src/models.rs lines 99-113). -/
def apiResultInto {T : Type} (r : ApiResult T) : Except Error T :=
  match r with
  | ⟨some e, _⟩ => .error (.response e)
  | ⟨none, some result⟩ => .ok result
  | ⟨none, none⟩ => .error .emptyResponse

/-- timestamp::deserialize (src/models.rs lines 210-240), attached via
serde(with) only to the film-list timestamp members — Item's
filmlisteTimestamp (line 70) and QueryInfo's (line 85) — and driven by
serde_json deserialize_any: a non-negative integer up to u64 range reaches
visit_u64 and is narrowed to i64 by try_into (error above i64::MAX); a
negative integer in i64 range reaches visit_i64 and is returned as is; an
integer outside both ranges is a float to serde_json and hits the visitor
default, an error; a string reaches visit_str and is parsed as i64; every
other JSON value hits a visitor default, an error. -/
def timestampDeserialize (j : Json) : Except String Int :=
  match j with
  | .num n =>
    if 0 ≤ n then
      if n < 2 ^ 63 then .ok n
      else if n < 2 ^ 64 then .error "out of range integral type conversion attempted"
      else .error "invalid type"
    else
      if -(2 ^ 63) ≤ n then .ok n
      else .error "invalid type"
  | .str s =>
    match parseI64 s with
    | some n => .ok n
    | none => .error "invalid digit found in string"
  | _ => .error "invalid type"

/-- Decoding the Item struct's own timestamp member (src/models.rs line
58): a plain i64 with no custom deserializer, so serde's stock i64 impl
applies — a JSON integer in i64 range is accepted (a stored u64 above
i64::MAX is an out-of-range value error), integers outside u64/i64
storage are floats to serde_json and a type error, and every non-number
JSON value, in particular every string, is a type error. -/
def itemTimestampDeserialize (j : Json) : Except String Int :=
  match j with
  | .num n =>
    if 0 ≤ n then
      if n < 2 ^ 63 then .ok n
      else if n < 2 ^ 64 then .error "invalid value"
      else .error "invalid type"
    else
      if -(2 ^ 63) ≤ n then .ok n
      else .error "invalid type"
  | _ => .error "invalid type"

/-- empty_string_as_none (src/models.rs lines 243-253): String::deserialize
succeeds only on a JSON string, then an empty string becomes None and any
other string becomes Some of itself. -/
def emptyStringAsNone (j : Json) : Except String (Option String) :=
  match j with
  | .str s => if s = "" then .ok none else .ok (some s)
  | _ => .error "invalid type"

/-- Decoding one of the Item members marked deserialize_with
empty_string_as_none (src/models.rs lines 56-69) from the value found at
its key, or from no value when the key is missing: the serde derive, given
deserialize_with and no default attribute, reports a missing key as a
missing-field error and otherwise runs empty_string_as_none on the value. -/
def itemOptionalStringField (v : Option Json) : Except String (Option String) :=
  match v with
  | none => .error "missing field"
  | some j => emptyStringAsNone j

/-- optional_duration_secs::deserialize (src/models.rs lines 163-197),
driven by serde_json deserialize_any: the visitor implements visit_u64
(a non-negative integer in u64 range becomes a present duration of that
many seconds) and visit_str (the empty string becomes None, any other
string is an error); negative integers reach the unimplemented visit_i64
and every remaining JSON value another unimplemented visitor method, all
of which default to a type error. The visitor's visit_none is unreachable
through deserialize_any on a JSON value. Durations are seconds. -/
def optionalDurationSecsDeserialize (j : Json) : Except String (Option Nat) :=
  match j with
  | .num n =>
    if 0 ≤ n ∧ n < 2 ^ 64 then .ok (some n.toNat)
    else .error "invalid type"
  | .str s => if s = "" then .ok none else .error "string is not empty"
  | _ => .error "invalid type"

/-- The f32 values relevant to duration_millisecs::deserialize: a finite
value, modelled exactly by a rational, or one of the special values. -/
inductive F32 where
  | finite (q : Rat)
  | inf
  | neginf
  | nan
deriving DecidableEq

/-- Rust f32 FromStr, modelled on the fragment of its grammar this
development evaluates: an optional sign followed either by one of the
keywords inf, infinity, nan (any capitalization) or by a digit string
whose value stays below 2 ^ 24, where the parsed f32 is exactly the
written value so no rounding occurs. Inputs outside this fragment
(fractional, exponent or large-magnitude forms) are left out of the model
and mapped to none; no theorem below evaluates the decoder on them. -/
def parseF32Exact (s : String) : Option F32 :=
  let signAndRest : Bool × List Char :=
    match s.data with
    | '+' :: rest => (false, rest)
    | '-' :: rest => (true, rest)
    | l => (false, l)
  let neg := signAndRest.1
  let cs := signAndRest.2
  let low := cs.map Char.toLower
  if low = "inf".data ∨ low = "infinity".data then
    some (if neg then .neginf else .inf)
  else if low = "nan".data then some .nan
  else if (!cs.isEmpty) && cs.all isDigitChar then
    let v := digitsToNat cs
    if v < 2 ^ 24 then
      some (.finite (if neg then -(v : Rat) else (v : Rat)))
    else none
  else none

/-- duration_millisecs::deserialize (src/models.rs lines 136-145):
borrow a JSON string (any other value is a type error), parse it as f32
(a parse failure becomes a decode error via Error::custom), then call
Duration::from_secs_f32, which PANICS when the value is negative, not
finite, or overflows Duration — modelled by the outer Option, where none
is a panic. A returned duration is its rational seconds. -/
def durationMillisecsDeserialize (j : Json) : Option (Except String Rat) :=
  match j with
  | .str s =>
    match parseF32Exact s with
    | none => some (.error "invalid float literal")
    | some (.finite q) =>
      if 0 ≤ q ∧ q < 2 ^ 64 then some (.ok q) else none
    | some _ => none
  | _ => some (.error "invalid type")

/-- Two clauses agree up to the searchEverywhere choice: same text, and
either identical field lists or the two plain-text field lists. -/
def clauseAgrees (a b : Query) : Prop :=
  a.query = b.query ∧
  (a.fields = b.fields ∨ (a.fields = plainFields false ∧ b.fields = plainFields true))

/-- Two parser states agree up to the searchEverywhere choice: equal
duration bounds and all other scalar members, and pairwise agreeing
clause lists. -/
def stateAgrees (a b : MediathekQuery) : Prop :=
  a.duration_min = b.duration_min ∧
  a.duration_max = b.duration_max ∧
  a.future = b.future ∧
  a.sort_by = b.sort_by ∧
  a.sort_order = b.sort_order ∧
  a.size = b.size ∧
  a.offset = b.offset ∧
  List.Forall₂ clauseAgrees a.queries b.queries

/-- C1: evaluating from_search_string at the two-token plain-text input
"foo bar" shows that each unrecognized token contributes a clause whose
text is the WHOLE input string, not the token itself: both clauses carry
"foo bar", where the claim requires the clauses "foo" and "bar". -/
theorem plain_text_clause_uses_whole_input :
    fromSearchString "foo bar" false =
      { queries := [⟨[QueryField.topic, QueryField.title], "foo bar"⟩,
                    ⟨[QueryField.topic, QueryField.title], "foo bar"⟩] } := by
  decide

/-- C3: collapsing the decoded envelope — a present err list always wins
and is carried verbatim, regardless of the result payload; with err
absent, a present result is returned as success; with both absent the
outcome is the EmptyResponse error. -/
theorem envelope_collapse_precedence (T : Type) :
    (∀ (e : List String) (r : Option T),
      apiResultInto ⟨some e, r⟩ = Except.error (Error.response e)) ∧
    (∀ t : T, apiResultInto ⟨none, some t⟩ = Except.ok t) ∧
    apiResultInto (⟨none, none⟩ : ApiResult T) = Except.error Error.emptyResponse :=
  ⟨fun _ _ => rfl, fun _ => rfl, rfl⟩

/-- C10: decoding searchEngineTime is not total: the strings "-1", "inf"
and "NaN" each parse as f32 values on which Duration::from_secs_f32
panics (modelled by none), so the decode neither returns a duration nor a
decode error there. -/
theorem duration_decode_panics_on_negative :
    durationMillisecsDeserialize (Json.str "-1") = none ∧
    durationMillisecsDeserialize (Json.str "inf") = none ∧
    durationMillisecsDeserialize (Json.str "NaN") = none :=
  ⟨rfl, rfl, rfl⟩

/-- C9 counterexample: the builder state reached by the single call
query([], "x") holds a clause whose fields list is empty, so not every
builder-reachable state keeps the non-empty-fields invariant. -/
theorem builder_empty_fields_reachable :
    ∃ c, c ∈ (buildQuery [BuilderOp.query [] "x"]).queries ∧ c.fields = [] :=
  ⟨⟨[], "x"⟩, by decide⟩

lemma foldl_builder_nonempty (ops : List BuilderOp) (q : MediathekQuery)
    (hq : ∀ c ∈ q.queries, c.fields ≠ [])
    (hops : ∀ f t, BuilderOp.query f t ∈ ops → f ≠ []) :
    ∀ c ∈ (ops.foldl applyBuilderOp q).queries, c.fields ≠ [] := by
  induction ops generalizing q with
  | nil => simpa using hq
  | cons op rest ih =>
    simp only [List.foldl_cons]
    refine ih (applyBuilderOp q op) ?_ (fun f t hmem => hops f t (List.mem_cons_of_mem _ hmem))
    cases op with
    | query f t =>
      intro c hc
      simp only [applyBuilderOp, List.mem_append, List.mem_singleton] at hc
      rcases hc with h | h
      · exact hq c h
      · subst h
        exact hops f t (List.mem_cons_self _ _)
    | duration_min d => exact hq
    | duration_max d => exact hq
    | include_future b => exact hq
    | sort_by f => exact hq
    | sort_order o => exact hq
    | size n => exact hq
    | offset n => exact hq

/-- C9 amended: a clause added by the builder carries exactly the
caller-supplied field list, so whenever every query call in a builder run
supplies a non-empty field list, no clause of the resulting Query has an
empty fields list. -/
theorem builder_query_nonempty_fields (ops : List BuilderOp)
    (h : ∀ f t, BuilderOp.query f t ∈ ops → f ≠ []) :
    ∀ c ∈ (buildQuery ops).queries, c.fields ≠ [] :=
  foldl_builder_nonempty ops {} (by intro c hc; simp at hc) h

/-- Witness for C9 amended at the one-call run query([topic], "t"). -/
theorem builder_query_nonempty_fields_witness :
    Query.fields ⟨[QueryField.topic], "t"⟩ ≠ [] := by
  refine builder_query_nonempty_fields [BuilderOp.query [QueryField.topic] "t"] ?_ _ ?_
  · intro f t hmem
    simp only [List.mem_singleton] at hmem
    injection hmem with h1 h2
    rw [h1]
    simp
  · decide

/-- C4 counterexample: for the empty-string-as-none Item fields, an
absent value is a missing-field decode error, not a successful decode to
absent as the claim states. -/
theorem absent_field_error_not_none :
    itemOptionalStringField none ≠ Except.ok none := by
  simp [itemOptionalStringField]

/-- C4 amended: the decoder maps an empty string to absent and any
non-empty string to present with that string, never surfacing the empty
string through a successful decode; an absent value, however, is a
missing-field decode error rather than absent. -/
theorem empty_string_fields_behavior (s : String) :
    itemOptionalStringField (some (Json.str "")) = Except.ok none ∧
    (s ≠ "" → itemOptionalStringField (some (Json.str s)) = Except.ok (some s)) ∧
    (∀ v r, itemOptionalStringField v = Except.ok (some r) → r ≠ "") ∧
    itemOptionalStringField none = Except.error "missing field" := by
  refine ⟨rfl, ?_, ?_, rfl⟩
  · intro hs
    simp [itemOptionalStringField, emptyStringAsNone, hs]
  · intro v r h
    cases v with
    | none => simp [itemOptionalStringField] at h
    | some j =>
      cases j with
      | str t =>
        simp only [itemOptionalStringField, emptyStringAsNone] at h
        by_cases ht : t = ""
        · rw [if_pos ht] at h
          exact absurd h (by simp)
        · rw [if_neg ht] at h
          have h3 : t = r := Option.some.inj (Except.ok.inj h)
          rw [← h3]
          exact ht
      | num n => simp [itemOptionalStringField, emptyStringAsNone] at h
      | float x => simp [itemOptionalStringField, emptyStringAsNone] at h
      | bool b => simp [itemOptionalStringField, emptyStringAsNone] at h
      | null => simp [itemOptionalStringField, emptyStringAsNone] at h
      | arr xs => simp [itemOptionalStringField, emptyStringAsNone] at h
      | obj kvs => simp [itemOptionalStringField, emptyStringAsNone] at h

/-- Witness for C4 amended at a non-empty and at an empty string. -/
theorem empty_string_fields_behavior_witness :
    itemOptionalStringField (some (Json.str "x")) = Except.ok (some "x") ∧
    itemOptionalStringField (some (Json.str "")) = Except.ok none := by
  have h := empty_string_fields_behavior "x"
  exact ⟨h.2.1 (by decide), h.1⟩

/-- C2 counterexample: the Item struct's own timestamp member is a plain
i64 without the tolerant timestamp module, so it rejects the string
"1700000000" with a type error instead of accepting it as the claim
states. -/
theorem item_timestamp_rejects_string :
    itemTimestampDeserialize (Json.str "1700000000") = Except.error "invalid type" ∧
    itemTimestampDeserialize (Json.str "1700000000") ≠ Except.ok 1700000000 :=
  ⟨rfl, by simp [itemTimestampDeserialize]⟩

/-- C2 amended: the Item's own timestamp field decodes only from a native
JSON integer (in i64 range) and rejects every string; the number-or-string
tolerance lives in the timestamp module, which the code attaches to the
film-list timestamp fields instead — that decoder accepts a native integer
in i64 range and any string that i64-parses (digits with an optional
leading sign), normalizing both to the same signed integer, and a string
that does not parse as an integer is a decode error for it. -/
theorem timestamp_field_encodings (n : Int)
    (h1 : -(2 ^ 63) ≤ n) (h2 : n < 2 ^ 63) :
    itemTimestampDeserialize (Json.num n) = Except.ok n ∧
    (∀ s, itemTimestampDeserialize (Json.str s) = Except.error "invalid type") ∧
    timestampDeserialize (Json.num n) = Except.ok n ∧
    (∀ s, parseI64 s = some n → timestampDeserialize (Json.str s) = Except.ok n) ∧
    (∀ s, parseI64 s = none →
      timestampDeserialize (Json.str s) = Except.error "invalid digit found in string") := by
  refine ⟨?_, fun _ => rfl, ?_, ?_, ?_⟩
  · simp only [itemTimestampDeserialize]
    by_cases h0 : 0 ≤ n
    · rw [if_pos h0, if_pos h2]
    · rw [if_neg h0, if_pos h1]
  · simp only [timestampDeserialize]
    by_cases h0 : 0 ≤ n
    · rw [if_pos h0, if_pos h2]
    · rw [if_neg h0, if_pos h1]
  · intro s hs
    simp [timestampDeserialize, hs]
  · intro s hs
    simp [timestampDeserialize, hs]

/-- Witness for C2 amended at 1700000000 as a number for the Item field
and as number, plain string, signed string and non-numeric string for the
film-list timestamp decoder. -/
theorem timestamp_field_encodings_witness :
    itemTimestampDeserialize (Json.num 1700000000) = Except.ok 1700000000 ∧
    itemTimestampDeserialize (Json.str "1700000000") = Except.error "invalid type" ∧
    timestampDeserialize (Json.num 1700000000) = Except.ok 1700000000 ∧
    timestampDeserialize (Json.str "1700000000") = Except.ok 1700000000 ∧
    timestampDeserialize (Json.str "-42") = Except.ok (-42) ∧
    timestampDeserialize (Json.str "abc") = Except.error "invalid digit found in string" := by
  have h := timestamp_field_encodings 1700000000 (by norm_num) (by norm_num)
  have h2 := timestamp_field_encodings (-42) (by norm_num) (by norm_num)
  exact ⟨h.1, h.2.1 "1700000000", h.2.2.1, h.2.2.2.1 "1700000000" (by decide),
    h2.2.2.2.1 "-42" (by decide), h.2.2.2.2 "abc" (by decide)⟩

/-- C5: the optional duration field decodes successfully in exactly two
ways — a bare unsigned integer (in u64 range) gives a present duration of
that many seconds and the empty string gives absent — and every other
JSON value (non-empty string, negative number, float, bool, null, array,
object) is a decode error. -/
theorem optional_duration_two_encodings (j : Json) (d : Nat) :
    (optionalDurationSecsDeserialize j = Except.ok (some d) ↔
      j = Json.num d ∧ d < 2 ^ 64) ∧
    (optionalDurationSecsDeserialize j = Except.ok none ↔ j = Json.str "") ∧
    ((∃ m, optionalDurationSecsDeserialize j = Except.error m) ↔
      ¬ ((∃ n : Nat, n < 2 ^ 64 ∧ j = Json.num n) ∨ j = Json.str "")) := by
  cases j with
  | num n =>
    by_cases hn : 0 ≤ n ∧ n < 2 ^ 64
    · have hval : optionalDurationSecsDeserialize (Json.num n) = Except.ok (some n.toNat) := by
        simp only [optionalDurationSecsDeserialize]
        rw [if_pos hn]
      refine ⟨?_, ?_, ?_⟩
      · rw [hval]
        simp only [Except.ok.injEq, Option.some.injEq, Json.num.injEq]
        omega
      · rw [hval]
        simp
      · refine iff_of_false ?_ ?_
        · rintro ⟨m, hm⟩
          rw [hval] at hm
          exact Except.noConfusion hm
        · intro hnot
          refine hnot (Or.inl ⟨n.toNat, by omega, ?_⟩)
          simp only [Json.num.injEq]
          omega
    · have hval : optionalDurationSecsDeserialize (Json.num n) = Except.error "invalid type" := by
        simp only [optionalDurationSecsDeserialize, if_neg hn]
      refine ⟨?_, ?_, ?_⟩
      · refine iff_of_false ?_ ?_
        · intro hm
          rw [hval] at hm
          exact Except.noConfusion hm
        · rintro ⟨he, hlt⟩
          simp only [Json.num.injEq] at he
          omega
      · rw [hval]
        simp
      · refine iff_of_true ⟨"invalid type", hval⟩ ?_
        rintro (⟨m, hlt, he⟩ | he)
        · simp only [Json.num.injEq] at he
          omega
        · exact Json.noConfusion he
  | str s =>
    by_cases hs : s = ""
    · subst hs
      refine ⟨?_, ?_, ?_⟩ <;> simp [optionalDurationSecsDeserialize]
    · refine ⟨?_, ?_, ?_⟩ <;> simp [optionalDurationSecsDeserialize, hs]
  | float x => refine ⟨?_, ?_, ?_⟩ <;> simp [optionalDurationSecsDeserialize]
  | bool b => refine ⟨?_, ?_, ?_⟩ <;> simp [optionalDurationSecsDeserialize]
  | null => refine ⟨?_, ?_, ?_⟩ <;> simp [optionalDurationSecsDeserialize]
  | arr xs => refine ⟨?_, ?_, ?_⟩ <;> simp [optionalDurationSecsDeserialize]
  | obj kvs => refine ⟨?_, ?_, ?_⟩ <;> simp [optionalDurationSecsDeserialize]

/-- Witness for C5 at a bare integer, the empty string, a non-empty
string and a negative number. -/
theorem optional_duration_two_encodings_witness :
    optionalDurationSecsDeserialize (Json.num 90) = Except.ok (some 90) ∧
    optionalDurationSecsDeserialize (Json.str "") = Except.ok none ∧
    (∃ m, optionalDurationSecsDeserialize (Json.str "live") = Except.error m) ∧
    (∃ m, optionalDurationSecsDeserialize (Json.num (-7)) = Except.error m) := by
  have h90 := optional_duration_two_encodings (Json.num 90) 90
  have hemp := optional_duration_two_encodings (Json.str "") 0
  have hlive := optional_duration_two_encodings (Json.str "live") 0
  have hneg := optional_duration_two_encodings (Json.num (-7)) 0
  refine ⟨h90.1.mpr ⟨rfl, by norm_num⟩, hemp.2.1.mpr rfl, ?_, ?_⟩
  · refine hlive.2.2.mpr ?_
    rintro (⟨n, _, hn⟩ | hn) <;> exact absurd hn (by simp)
  · refine hneg.2.2.mpr ?_
    rintro (⟨n, _, hn⟩ | hn)
    · simp only [Json.num.injEq] at hn
      omega
    · exact absurd hn (by simp)

lemma mem_map_fst_optEntry (x k : String) (o : Option Json) :
    x ∈ (optEntry k o).map Prod.fst ↔ x = k ∧ o.isSome = true := by
  cases o <;> simp [optEntry]

lemma mem_optEntry (kv : String × Json) (k : String) (o : Option Json) :
    kv ∈ optEntry k o ↔ ∃ v, o = some v ∧ kv = (k, v) := by
  cases o <;> simp [optEntry]

lemma isSome_bind_some {α β : Type} (o : Option α) (f : α → β) :
    (o.bind fun a => some (f a)).isSome = o.isSome := by
  cases o <;> rfl

/-- C6: the serialized payload of any MediathekQuery state contains the
key of each optional member exactly when that member is set, and no
emitted value is null — an unset member is an absent key, not a null. -/
theorem serialization_omits_unset (q : MediathekQuery) :
    ("duration_min" ∈ wireKeys q ↔ q.duration_min.isSome = true) ∧
    ("duration_max" ∈ wireKeys q ↔ q.duration_max.isSome = true) ∧
    ("future" ∈ wireKeys q ↔ q.future.isSome = true) ∧
    ("sortBy" ∈ wireKeys q ↔ q.sort_by.isSome = true) ∧
    ("sortOrder" ∈ wireKeys q ↔ q.sort_order.isSome = true) ∧
    ("size" ∈ wireKeys q ↔ q.size.isSome = true) ∧
    ("offset" ∈ wireKeys q ↔ q.offset.isSome = true) ∧
    (∀ kv ∈ serializeMediathekQuery q, kv.2 ≠ Json.null) := by
  refine ⟨?k1, ?k2, ?k3, ?k4, ?k5, ?k6, ?k7, ?knull⟩
  case k1 | k2 | k3 | k4 | k5 | k6 | k7 =>
    simp only [wireKeys, serializeMediathekQuery, List.map_append, List.mem_append,
      List.map_cons, List.map_nil, List.mem_cons, List.not_mem_nil, or_false,
      mem_map_fst_optEntry, Option.isSome_map']
    simp [isSome_bind_some]
  intro kv hkv
  simp only [serializeMediathekQuery, List.mem_append, List.mem_singleton,
    mem_optEntry] at hkv
  rcases hkv with (((((((rfl | h) | h) | h) | h) | h) | h) | h)
  · simp
  · obtain ⟨v, hv, rfl⟩ := h
    obtain ⟨a, ha, rfl⟩ := Option.map_eq_some'.mp hv
    simp
  · obtain ⟨v, hv, rfl⟩ := h
    obtain ⟨a, ha, rfl⟩ := Option.map_eq_some'.mp hv
    simp
  · obtain ⟨v, hv, rfl⟩ := h
    obtain ⟨a, ha, rfl⟩ := Option.map_eq_some'.mp hv
    simp
  · obtain ⟨v, hv, rfl⟩ := h
    obtain ⟨a, ha, rfl⟩ := Option.map_eq_some'.mp hv
    cases a <;> simp [serializeSortField]
  · obtain ⟨v, hv, rfl⟩ := h
    obtain ⟨a, ha, rfl⟩ := Option.map_eq_some'.mp hv
    cases a <;> simp [serializeSortOrder]
  · obtain ⟨v, hv, rfl⟩ := h
    obtain ⟨a, ha, rfl⟩ := Option.map_eq_some'.mp hv
    simp
  · obtain ⟨v, hv, rfl⟩ := h
    obtain ⟨a, ha, rfl⟩ := Option.map_eq_some'.mp hv
    simp

/-- Witness for C6 at a state with only duration_min set: its key is
emitted and the unset size key is absent. -/
theorem serialization_omits_unset_witness :
    "duration_min" ∈ wireKeys { duration_min := some 60 } ∧
    "size" ∉ wireKeys { duration_min := some 60 } := by
  have h := serialization_omits_unset { duration_min := some 60 }
  refine ⟨h.1.mpr rfl, fun hmem => ?_⟩
  have h2 := h.2.2.2.2.2.1.mp hmem
  simp at h2

lemma forall2_clauseAgrees_snoc {l₁ l₂ : List Query} {a b : Query}
    (h : List.Forall₂ clauseAgrees l₁ l₂) (hab : clauseAgrees a b) :
    List.Forall₂ clauseAgrees (l₁ ++ [a]) (l₂ ++ [b]) := by
  induction h with
  | nil => exact List.Forall₂.cons hab List.Forall₂.nil
  | cons hx hrest ih => exact List.Forall₂.cons hx ih

lemma step_agrees (s part : String) {a b : MediathekQuery} (h : stateAgrees a b) :
    stateAgrees (fromSearchStep s false a part) (fromSearchStep s true b part) := by
  obtain ⟨h1, h2, h3, h4, h5, h6, h7, hq⟩ := h
  unfold fromSearchStep
  cases stripChar '!' part with
  | some channel =>
    exact ⟨h1, h2, h3, h4, h5, h6, h7, forall2_clauseAgrees_snoc hq ⟨rfl, Or.inl rfl⟩⟩
  | none =>
    cases stripChar '#' part with
    | some topic =>
      exact ⟨h1, h2, h3, h4, h5, h6, h7, forall2_clauseAgrees_snoc hq ⟨rfl, Or.inl rfl⟩⟩
    | none =>
      cases stripChar '+' part with
      | some title =>
        exact ⟨h1, h2, h3, h4, h5, h6, h7, forall2_clauseAgrees_snoc hq ⟨rfl, Or.inl rfl⟩⟩
      | none =>
        cases stripChar '*' part with
        | some description =>
          exact ⟨h1, h2, h3, h4, h5, h6, h7, forall2_clauseAgrees_snoc hq ⟨rfl, Or.inl rfl⟩⟩
        | none =>
          cases (stripChar '>' part).bind parseU64 with
          | some dmin => exact ⟨rfl, h2, h3, h4, h5, h6, h7, hq⟩
          | none =>
            cases (stripChar '<' part).bind parseU64 with
            | some dmax => exact ⟨h1, rfl, h3, h4, h5, h6, h7, hq⟩
            | none =>
              exact ⟨h1, h2, h3, h4, h5, h6, h7,
                forall2_clauseAgrees_snoc hq ⟨rfl, Or.inr ⟨rfl, rfl⟩⟩⟩

lemma foldl_agrees (s : String) (parts : List String) {a b : MediathekQuery}
    (h : stateAgrees a b) :
    stateAgrees (parts.foldl (fromSearchStep s false) a)
      (parts.foldl (fromSearchStep s true) b) := by
  induction parts generalizing a b with
  | nil => exact h
  | cons p ps ih => exact ih (step_agrees s p h)

/-- C7: for every input string, the parses with searchEverywhere false
and true have equal duration bounds and all other scalar members, and
clause lists that agree pairwise — same text, and identical field lists
except that a plain-text clause carries the false-side field list in the
one and the true-side field list in the other. -/
theorem search_everywhere_only_plain_fields (s : String) :
    stateAgrees (fromSearchString s false) (fromSearchString s true) :=
  foldl_agrees s (splitWhitespaceTokens s)
    ⟨rfl, rfl, rfl, rfl, rfl, rfl, rfl, List.Forall₂.nil⟩

/-- Witness for C7 at a mixed input with a channel token, a bound token
and a plain-text token. -/
theorem search_everywhere_only_plain_fields_witness :
    stateAgrees (fromSearchString "!ard >60 wetter" false)
      (fromSearchString "!ard >60 wetter" true) :=
  search_everywhere_only_plain_fields "!ard >60 wetter"

lemma stripChar_ne_of_some {c c' : Char} {s p : String}
    (h : stripChar c s = some p) (hne : c' ≠ c) : stripChar c' s = none := by
  cases hd : s.data with
  | nil => simp [stripChar, hd] at h
  | cons c0 rest =>
    simp only [stripChar, hd] at h ⊢
    by_cases h0 : c0 = c
    · rw [if_neg (show c0 ≠ c' from fun hc => hne (hc ▸ h0))]
    · rw [if_neg h0] at h
      exact absurd h (by simp)

/-- C8: for any parser state, a token `>N` whose payload N u64-parses
sets duration_min to N (overwriting any prior value) and adds no clause;
`<N` does the same for duration_max; and a `>`/`<` token whose payload
does not u64-parse falls through to plain-text handling, adding exactly
one plain-text clause and leaving both bounds unchanged. The parse is the
left fold of this step over the whitespace tokens, so within one parse a
later bound token overwrites an earlier value of the same bound. -/
theorem duration_bound_token_semantics (s part p : String) (ew : Bool)
    (q : MediathekQuery) :
    (stripChar '>' part = some p →
      (∀ n, parseU64 p = some n →
        fromSearchStep s ew q part = { q with duration_min := some n }) ∧
      (parseU64 p = none →
        fromSearchStep s ew q part =
          { q with queries := q.queries ++ [⟨plainFields ew, s⟩] })) ∧
    (stripChar '<' part = some p →
      (∀ n, parseU64 p = some n →
        fromSearchStep s ew q part = { q with duration_max := some n }) ∧
      (parseU64 p = none →
        fromSearchStep s ew q part =
          { q with queries := q.queries ++ [⟨plainFields ew, s⟩] })) ∧
    fromSearchString s ew = (splitWhitespaceTokens s).foldl (fromSearchStep s ew) {} := by
  refine ⟨?_, ?_, rfl⟩
  · intro hgt
    have h1 : stripChar '!' part = none := stripChar_ne_of_some hgt (by decide)
    have h2 : stripChar '#' part = none := stripChar_ne_of_some hgt (by decide)
    have h3 : stripChar '+' part = none := stripChar_ne_of_some hgt (by decide)
    have h4 : stripChar '*' part = none := stripChar_ne_of_some hgt (by decide)
    have h5 : stripChar '<' part = none := stripChar_ne_of_some hgt (by decide)
    constructor
    · intro n hn
      simp [fromSearchStep, h1, h2, h3, h4, hgt, hn]
    · intro hn
      simp [fromSearchStep, h1, h2, h3, h4, h5, hgt, hn]
  · intro hlt
    have h1 : stripChar '!' part = none := stripChar_ne_of_some hlt (by decide)
    have h2 : stripChar '#' part = none := stripChar_ne_of_some hlt (by decide)
    have h3 : stripChar '+' part = none := stripChar_ne_of_some hlt (by decide)
    have h4 : stripChar '*' part = none := stripChar_ne_of_some hlt (by decide)
    have h5 : stripChar '>' part = none := stripChar_ne_of_some hlt (by decide)
    constructor
    · intro n hn
      simp [fromSearchStep, h1, h2, h3, h4, h5, hlt, hn]
    · intro hn
      simp [fromSearchStep, h1, h2, h3, h4, h5, hlt, hn]

/-- Witness for C8 at a minimum bound token, a maximum bound token, an
overwrite, and a bound token with a non-parsing payload. -/
theorem duration_bound_token_semantics_witness :
    fromSearchStep "a" false {} ">60" = { duration_min := some 60 } ∧
    fromSearchStep "a" false {} "<45" = { duration_max := some 45 } ∧
    fromSearchStep "a" false { duration_min := some 60 } ">90" =
      { duration_min := some 90 } ∧
    fromSearchStep ">1x" false {} ">1x" =
      { queries := [⟨plainFields false, ">1x"⟩] } := by
  have h1 := duration_bound_token_semantics "a" ">60" "60" false {}
  have h2 := duration_bound_token_semantics "a" "<45" "45" false {}
  have h3 := duration_bound_token_semantics "a" ">90" "90" false { duration_min := some 60 }
  have h4 := duration_bound_token_semantics ">1x" ">1x" "1x" false {}
  exact ⟨(h1.1 (by decide)).1 60 (by decide), (h2.2.1 (by decide)).1 45 (by decide),
    (h3.1 (by decide)).1 90 (by decide), (h4.1 (by decide)).2 (by decide)⟩

end Mtvw
